import Mathlib

/-!
# Verification of `sandbox/OpenClow/extract_metadata.py`

A shallow embedding of the metadata extractor:

* `DisclosureScanner` (an `ast.NodeVisitor`) is embedded as the mutually
  recursive functions `visitStmt` / `visitBody` over a statement AST that
  keeps exactly the distinctions the visitor makes (plain function
  definitions, async function definitions, class bodies, expression
  statements carrying possible docstrings, other compound statements with
  nested bodies, and simple statements).
* `scan_file`, the `__main__` per-file dispatch loop, `scan_markdown` and
  `scan_generic` are embedded as pure functions; file reads are modelled by
  passing the file contents (or `Option.none` for a missing path), and a
  raised Python exception is modelled as `Except.error`.
-/

namespace OpenClow

/-!
## Python string primitives

The Python `str` methods the program uses, modelled over the character list
of a Lean `String` (so that everything reduces in the kernel). Whitespace is
the ASCII whitespace Python strips.
-/

/-- The whitespace characters `str.strip()` / `str.rstrip()` remove. -/
def isSpace (c : Char) : Bool :=
  c == ' ' || c == '\t' || c == '\n' || c == '\r' || c == '\x0b' || c == '\x0c'

/-- Python `s.rstrip()`. -/
def rstrip (s : String) : String :=
  String.mk (s.data.reverse.dropWhile isSpace).reverse

/-- Python `s.lstrip()`. -/
def lstrip (s : String) : String :=
  String.mk (s.data.dropWhile isSpace)

/-- Python `s.strip()`. -/
def strip (s : String) : String :=
  lstrip (rstrip s)

/-- Python `s.lstrip('#')`: remove leading `'#'` characters. -/
def lstripHash (s : String) : String :=
  String.mk (s.data.dropWhile fun c => c == '#')

/-- Python `s.startswith(p)`. -/
def startswith (s p : String) : Bool :=
  p.data.isPrefixOf s.data

/-- Python `s.expandtabs()` (tab size 8): each tab becomes the spaces
needed to reach the next multiple of 8; the column resets after a line
break. -/
def expandtabsAux : List Char → Nat → List Char
  | [], _ => []
  | c :: rest, col =>
      if c == '\t' then
        let pad := 8 - col % 8
        List.replicate pad ' ' ++ expandtabsAux rest (col + pad)
      else if c == '\n' || c == '\r' then
        c :: expandtabsAux rest 0
      else
        c :: expandtabsAux rest (col + 1)

/-- Python `s.expandtabs()`. -/
def expandtabs (s : String) : String :=
  String.mk (expandtabsAux s.data 0)

/-- Python `s.split('\n')` on the character list. -/
def splitOnNl : List Char → List (List Char)
  | [] => [[]]
  | c :: rest =>
      if c == '\n' then [] :: splitOnNl rest
      else
        match splitOnNl rest with
        | [] => [[c]]
        | l :: ls => (c :: l) :: ls

/-- The indentation of a line as `inspect.cleandoc` measures it:
`Option.none` for a blank line (nothing left after `lstrip`), otherwise the
number of stripped leading whitespace characters. -/
def lineIndent (l : List Char) : Option Nat :=
  let content := l.dropWhile isSpace
  if content.isEmpty then Option.none
  else some (l.length - content.length)

/-- The minimum indentation over the given lines (`sys.maxsize`, i.e. no
bound, is `Option.none`). -/
def marginOf (ls : List (List Char)) : Option Nat :=
  ls.foldl
    (fun acc l =>
      match lineIndent l with
      | Option.none => acc
      | some i =>
          match acc with
          | Option.none => some i
          | some m => some (min m i))
    Option.none

/-- `inspect.cleandoc(doc)`: expand tabs, split into lines, strip the first
line's leading whitespace, remove the minimum indentation of the non-blank
remaining lines from every remaining line, drop trailing then leading empty
lines, and rejoin with newlines. -/
def cleandoc (doc : String) : String :=
  let lines := splitOnNl (expandtabs doc).data
  let lines :=
    match lines with
    | [] => []
    | first :: rest =>
        first.dropWhile isSpace ::
          (match marginOf rest with
           | some m => rest.map (List.drop m)
           | Option.none => rest)
  let lines := (lines.reverse.dropWhile List.isEmpty).reverse
  let lines := lines.dropWhile List.isEmpty
  String.intercalate "\n" (lines.map String.mk)

/-- Python `x or fallback` for an optional string `x`: the string when it is
truthy (present and non-empty), the fallback otherwise. -/
def pyOr (x : Option String) (fallback : String) : String :=
  match x with
  | some s => if s == "" then fallback else s
  | Option.none => fallback

/-- Literal constant values (the payload of an `ast.Constant` node), as far
as the scanner can observe them. -/
inductive Lit where
  | intVal (n : Int)
  | strVal (s : String)
  | boolVal (b : Bool)
  | noneVal
deriving DecidableEq

/-- Expression shapes the scanner distinguishes with `isinstance`:
`ast.Name` (a bare identifier), `ast.Constant` (a literal), and every other
expression shape collapsed into `other` (subscripts, attributes, calls, ...),
which the scanner never looks inside for metadata purposes. -/
inductive Expr where
  | name (id : String)
  | const (value : Lit)
  | other
deriving DecidableEq

/-- A positional parameter (`ast.arg`): its name (field `arg`) and its
optional annotation expression (source field `annotation`). -/
structure Arg where
  arg : String
  ann : Option Expr
deriving DecidableEq

/-- Statements, keeping exactly what `DisclosureScanner`'s traversal can
observe. `generic_visit` descends into every child node, so each compound
statement keeps its nested statement lists; `compound` stands for
`if`/`for`/`while`/`with`/`try` with all nested suites concatenated, and
`other` for simple statements with no nested statements. `exprStmt` is an
`ast.Expr` statement; with a string-constant value at the head of a body it
is the docstring position. `lineno` is the 1-based source line. -/
inductive Stmt where
  | functionDef (name : String) (args : List Arg) (body : List Stmt)
      (returns : Option Expr) (lineno : Nat)
  | asyncFunctionDef (name : String) (args : List Arg) (body : List Stmt)
      (returns : Option Expr) (lineno : Nat)
  | classDef (name : String) (body : List Stmt) (lineno : Nat)
  | exprStmt (value : Expr) (lineno : Nat)
  | compound (body : List Stmt) (lineno : Nat)
  | other (lineno : Nat)

/-- `ParameterRecord`: one entry of the `parameters` list built by
`DisclosureScanner._get_args`. The `type` value is either a string (the
default `"Any"` or an identifier name) or the value of a literal-constant
annotation, so it is a `Lit`. -/
structure ParamRecord where
  name : String
  type : Lit
deriving DecidableEq

/-- `FunctionRecord`: the dict built by `visit_FunctionDef`
(`name`, `description`, `parameters`, `return_annotation` — rendered here as
`return_ann` — and `line_number`). -/
structure FuncData where
  name : String
  description : String
  parameters : List ParamRecord
  return_ann : String
  line_number : Nat
deriving DecidableEq

/-- Models `ast.get_docstring(node)`: when the first statement of the body
is an expression statement whose value is a string constant, the result is
that string passed through `inspect.cleandoc` (the default `clean=True`);
otherwise `None`. -/
def get_docstring (body : List Stmt) : Option String :=
  match body with
  | Stmt.exprStmt (Expr.const (Lit.strVal s)) _ :: _ => some (cleandoc s)
  | _ => Option.none

/-- `DisclosureScanner._get_args`: for each positional parameter, in order,
emit a record; `arg_type` starts as `"Any"` and is replaced only when the
annotation is a bare identifier (`ast.Name`, take its `id`) or a literal
constant (`ast.Constant`, take its value). -/
def get_args (args : List Arg) : List ParamRecord :=
  args.map fun a =>
    let arg_type : Lit :=
      match a.ann with
      | some (Expr.name id) => Lit.strVal id
      | some (Expr.const v) => v
      | _ => Lit.strVal "Any"
    { name := a.arg, type := arg_type }

/-- `DisclosureScanner._get_return_type`: the identifier when the return
annotation is an `ast.Name`, `"Unknown"` in every other case (no annotation,
constant, or any other shape). -/
def get_return_type (returns : Option Expr) : String :=
  match returns with
  | some (Expr.name id) => id
  | _ => "Unknown"

/-- The components of one plain `ast.FunctionDef` node, as a value. -/
structure FuncNode where
  name : String
  args : List Arg
  body : List Stmt
  returns : Option Expr
  lineno : Nat

/-- The `func_data` dict that `visit_FunctionDef` appends for a qualifying
function node. The description is
`ast.get_docstring(node) or "No description provided."` — Python `or`, so a
`None` OR an empty (falsy) docstring falls back. -/
def func_data (f : FuncNode) : FuncData :=
  { name := f.name
    description := pyOr (get_docstring f.body) "No description provided."
    parameters := get_args f.args
    return_ann := get_return_type f.returns
    line_number := f.lineno }

mutual

/-- One `visit` step of `DisclosureScanner` on a statement node, returning
the records it appends (in order). `visit_FunctionDef` appends a record when
the name does not start with `'_'` and then calls `generic_visit`, which
descends into the body; every other statement kind hits the default
`generic_visit`, which descends into nested statements and appends
nothing. -/
def visitStmt : Stmt → List FuncData
  | Stmt.functionDef nm args body returns lineno =>
      (if startswith nm "_" then []
       else [func_data ⟨nm, args, body, returns, lineno⟩]) ++ visitBody body
  | Stmt.asyncFunctionDef _ _ body _ _ => visitBody body
  | Stmt.classDef _ body _ => visitBody body
  | Stmt.exprStmt _ _ => []
  | Stmt.compound body _ => visitBody body
  | Stmt.other _ => []

/-- `generic_visit` over a suite: visit each statement in order. -/
def visitBody : List Stmt → List FuncData
  | [] => []
  | s :: rest => visitStmt s ++ visitBody rest

end

/-- Running the scanner on a parsed module (`scanner.visit(tree)` on an
`ast.Module` whose body is `m`): the accumulated `self.metadata`. -/
def scan (m : List Stmt) : List FuncData :=
  visitBody m

mutual

/-- All plain (non-async) `ast.FunctionDef` nodes inside a statement, in the
pre-order the visitor traverses them. -/
def funcNodes : Stmt → List FuncNode
  | Stmt.functionDef nm args body returns lineno =>
      ⟨nm, args, body, returns, lineno⟩ :: funcNodesBody body
  | Stmt.asyncFunctionDef _ _ body _ _ => funcNodesBody body
  | Stmt.classDef _ body _ => funcNodesBody body
  | Stmt.exprStmt _ _ => []
  | Stmt.compound body _ => funcNodesBody body
  | Stmt.other _ => []

/-- All plain `ast.FunctionDef` nodes inside a suite, in pre-order. -/
def funcNodesBody : List Stmt → List FuncNode
  | [] => []
  | s :: rest => funcNodes s ++ funcNodesBody rest

end

mutual

/-- The pre-order list of `lineno` values of every statement inside a
statement (the statement itself first). -/
def stmtLines : Stmt → List Nat
  | Stmt.functionDef _ _ body _ lineno => lineno :: bodyLines body
  | Stmt.asyncFunctionDef _ _ body _ lineno => lineno :: bodyLines body
  | Stmt.classDef _ body lineno => lineno :: bodyLines body
  | Stmt.exprStmt _ lineno => [lineno]
  | Stmt.compound body lineno => lineno :: bodyLines body
  | Stmt.other lineno => [lineno]

/-- The pre-order list of `lineno` values of every statement in a suite. -/
def bodyLines : List Stmt → List Nat
  | [] => []
  | s :: rest => stmtLines s ++ bodyLines rest

end

mutual

/-- The scanner's output on one statement is exactly the pre-order list of
its plain function-definition nodes, filtered to public names, rendered as
records. -/
theorem visitStmt_eq_filter (s : Stmt) :
    visitStmt s
      = ((funcNodes s).filter fun f => !(startswith f.name "_")).map func_data := by
  cases s with
  | functionDef nm args body returns lineno =>
      rw [visitStmt, funcNodes, List.filter_cons]
      cases h : startswith nm "_" with
      | true => simp [h, visitBody_eq_filter body]
      | false => simp [h, visitBody_eq_filter body]
  | asyncFunctionDef nm args body returns lineno =>
      rw [visitStmt, funcNodes]; exact visitBody_eq_filter body
  | classDef nm body lineno =>
      rw [visitStmt, funcNodes]; exact visitBody_eq_filter body
  | exprStmt v lineno => rw [visitStmt, funcNodes]; rfl
  | compound body lineno =>
      rw [visitStmt, funcNodes]; exact visitBody_eq_filter body
  | other lineno => rw [visitStmt, funcNodes]; rfl

/-- Suite version of `visitStmt_eq_filter`. -/
theorem visitBody_eq_filter (l : List Stmt) :
    visitBody l
      = ((funcNodesBody l).filter fun f => !(startswith f.name "_")).map func_data := by
  cases l with
  | nil => rfl
  | cons s rest =>
      rw [visitBody, funcNodesBody, List.filter_append, List.map_append,
        visitStmt_eq_filter s, visitBody_eq_filter rest]

end

/-- `scan` characterised: the records are exactly the public plain function
definitions of the module, at any depth, in pre-order. -/
theorem scan_eq_filter (m : List Stmt) :
    scan m
      = ((funcNodesBody m).filter fun f => !(startswith f.name "_")).map func_data :=
  visitBody_eq_filter m

mutual

/-- The line numbers of the records a statement yields form a sublist of the
pre-order line numbers of its statements. -/
theorem visitStmt_lines_sublist (s : Stmt) :
    ((visitStmt s).map FuncData.line_number).Sublist (stmtLines s) := by
  cases s with
  | functionDef nm args body returns lineno =>
      rw [visitStmt, stmtLines, List.map_append]
      cases h : startswith nm "_" with
      | true =>
          simp only [h, if_pos]
          exact List.Sublist.cons lineno (visitBody_lines_sublist body)
      | false =>
          simp only [h, if_neg, Bool.false_eq_true, not_false_iff,
            List.map_cons, List.map_nil, func_data, List.singleton_append]
          exact List.Sublist.cons₂ lineno (visitBody_lines_sublist body)
  | asyncFunctionDef nm args body returns lineno =>
      rw [visitStmt, stmtLines]
      exact List.Sublist.cons lineno (visitBody_lines_sublist body)
  | classDef nm body lineno =>
      rw [visitStmt, stmtLines]
      exact List.Sublist.cons lineno (visitBody_lines_sublist body)
  | exprStmt v lineno => simp [visitStmt, stmtLines]
  | compound body lineno =>
      rw [visitStmt, stmtLines]
      exact List.Sublist.cons lineno (visitBody_lines_sublist body)
  | other lineno => simp [visitStmt, stmtLines]

/-- Suite version of `visitStmt_lines_sublist`. -/
theorem visitBody_lines_sublist (l : List Stmt) :
    ((visitBody l).map FuncData.line_number).Sublist (bodyLines l) := by
  cases l with
  | nil => simp [visitBody, bodyLines]
  | cons s rest =>
      rw [visitBody, bodyLines, List.map_append]
      exact List.Sublist.append (visitStmt_lines_sublist s)
        (visitBody_lines_sublist rest)

end

/-!
## `scan_file` and the directory indexer

File contents are passed in directly: `PyText` is the text of a Python file,
abstracted to its parse outcome, and a missing file is `Option.none`. A
raised exception is `Except.error` carrying `str(e)`.
-/

/-- The text of a Python source file, abstracted to what `ast.parse` does
with it: a valid file carries its module body, an invalid one carries the
`SyntaxError` diagnostic. -/
inductive PyText where
  | valid (m : List Stmt)
  | invalid (diag : String)

/-- Models `ast.parse`: the module body, or a raised `SyntaxError` with its
diagnostic. -/
def parse : PyText → Except String (List Stmt)
  | PyText.valid m => Except.ok m
  | PyText.invalid d => Except.error d

/-- What `scan_file` can produce when it returns normally: either the
`{"error": ...}` dict of the missing-file branch, or the scanner's
metadata list. -/
inductive ScanOut where
  | errDict (msg : String)
  | funcs (metadata : List FuncData)
deriving DecidableEq

/-- `scan_file(file_path)`: if the path does not exist, RETURN the dict
`{"error": f"File {file_path} not found."}`; otherwise parse the text (a
`SyntaxError` propagates, modelled by `Except.error`), run the scanner and
return its metadata. `found` is the outcome of `os.path.exists` plus the
read: `Option.none` when the path does not exist. -/
def scan_file (found : Option PyText) (file_path : String) :
    Except String ScanOut :=
  match found with
  | Option.none =>
      Except.ok (ScanOut.errDict ("File " ++ file_path ++ " not found."))
  | some t =>
      match parse t with
      | Except.error e => Except.error e
      | Except.ok tree => Except.ok (ScanOut.funcs (scan tree))

/-!
## `scan_markdown` (prose extractor)
-/

/-- Python truthiness of the `title` variable (`None` and `""` are falsy). -/
def truthy : Option String → Bool
  | Option.none => false
  | some s => !(s == "")

/-- `os.path.basename`: the part after the last path separator. -/
def basename (p : String) : String :=
  String.mk (p.data.reverse.takeWhile fun c => !(c == '/')).reverse

/-- The `for ln in lines` loop of `scan_markdown`: threads `title`,
`description_lines` and `in_para`; a blank line after a paragraph breaks the
loop. Returns the final `(title, description_lines)`. -/
def mdLoop : List String → Option String → List String → Bool →
    Option String × List String
  | [], title, dls, _ => (title, dls)
  | ln :: rest, title, dls, in_para =>
      let title :=
        if !(truthy title) && startswith ln "#" then
          some (strip (lstripHash ln))
        else title
      if strip ln == "" then
        if in_para then (title, dls)
        else mdLoop rest title dls in_para
      else mdLoop rest title (dls ++ [ln]) true

/-- The `{type, title, description}` dict `scan_markdown` returns. -/
structure MdResult where
  type : String
  title : String
  description : String
deriving DecidableEq

/-- `scan_markdown(path)` on the lines read from the file (`rawLines`, each
then `rstrip()`-ed — modelled with `trimRight`). After the loop, a falsy
title falls back to the first non-blank line stripped (when any line
exists), then `title or basename(path)` picks the basename for a still-falsy
title. Description: the accumulated lines joined with newlines and stripped,
or the fixed fallback when none accumulated. -/
def scan_markdown (path : String) (rawLines : List String) : MdResult :=
  let lines := rawLines.map rstrip
  let r := mdLoop lines Option.none [] false
  let title := r.1
  let description_lines := r.2
  let title :=
    if !(truthy title) && !lines.isEmpty then
      match lines.find? (fun ln => !(strip ln == "")) with
      | some ln => some (strip ln)
      | Option.none => title
    else title
  let description :=
    if description_lines.isEmpty then "No description available."
    else strip (String.intercalate "\n" description_lines)
  { type := "markdown"
    title := if truthy title then title.getD "" else basename path
    description := description }

/-!
## The `__main__` walk
-/

/-- A file discovered under the context directory: its path relative to the
root and its contents, classified the way the dispatch loop classifies by
suffix (`.py` / prose suffixes / everything else). `mdFile` carries the
lines as read; `binFile` carries the decoded text `scan_generic` reads. -/
inductive FileKind where
  | py (t : PyText)
  | mdFile (rawLines : List String)
  | binFile (content : String)

/-- One discovered file. -/
structure CFile where
  file : String
  kind : FileKind

/-- The payload of one report entry. -/
inductive EntryData where
  | python (functions : ScanOut)
  | pyError (msg : String)
  | markdown (md : MdResult)
  | generic (summary : String)
deriving DecidableEq

/-- One entry of the report (`{"file": rel, ...}`). -/
structure FileEntry where
  file : String
  data : EntryData
deriving DecidableEq

/-- The per-file dispatch of the `__main__` loop: `.py` files go through
`scan_file` inside `try/except` (an exception becomes the entry's `error`
field); prose files through `scan_markdown`; everything else through
`scan_generic`, whose summary is the first 1024 characters of (at most) the
first 2048 bytes read. -/
def dispatch : CFile → FileEntry
  | ⟨nm, FileKind.py t⟩ =>
      match scan_file (some t) nm with
      | Except.ok out => ⟨nm, EntryData.python out⟩
      | Except.error e => ⟨nm, EntryData.pyError e⟩
  | ⟨nm, FileKind.mdFile ls⟩ => ⟨nm, EntryData.markdown (scan_markdown nm ls)⟩
  | ⟨nm, FileKind.binFile s⟩ => ⟨nm, EntryData.generic (String.mk (s.data.take 1024))⟩

/-- The walk over the context directory: one entry per discovered file, in
visitation order (`os.walk` order with filenames sorted per directory; the
`files` argument is that ordered list). -/
def report (files : List CFile) : List FileEntry :=
  files.map dispatch

/-- The observable outcome of a `__main__` run. -/
inductive MainResult where
  | fatal (diagnostic : String) (exitCode : Nat)
  | success (banner : String) (entries : List FileEntry)
deriving DecidableEq

/-- The `__main__` driver: if the context directory is not a directory,
print the diagnostic and terminate with a non-zero status (the code prints
`f"Context directory not found: {CONTEXT_DIR}"` and then exits — the
`sys.exit(1)` call, `sys` being unimported, actually raises `NameError`,
which also terminates the process with exit status 1); otherwise walk the
tree and print the banner and the JSON report. -/
def main_run (ctxDir : String) (isDir : Bool) (files : List CFile) :
    MainResult :=
  if !isDir then
    MainResult.fatal ("Context directory not found: " ++ ctxDir) 1
  else
    MainResult.success "--- CONTEXT FILES METADATA ---" (report files)

/-!
## Auxiliary definitions for the claims
-/

/-- Spec-side predicate, modelled from the claim's words, for comparison
with the scanner: the module has a plain function definition with this name
as a DIRECT child of the file's top-level scope. -/
def isDirectTopLevelFuncDef (m : List Stmt) (nm : String) : Bool :=
  m.any fun s =>
    match s with
    | Stmt.functionDef n _ _ _ _ => n == nm
    | _ => false

/-- Spec-side definition, modelled from the spec's words, for comparison
with `scan_markdown`: the first contiguous run of non-blank lines. -/
def firstParagraph (lines : List String) : List String :=
  (lines.dropWhile fun ln => strip ln == "").takeWhile fun ln => !(strip ln == "")

/-- A module: public `f` at top level, with a public `g` nested inside
`f`'s body. -/
def mNested : List Stmt :=
  [Stmt.functionDef "f" []
    [Stmt.functionDef "g" [] [Stmt.other 3] Option.none 2] Option.none 1]

/-- A module with one public top-level function and no docstring. -/
def mPub : List Stmt :=
  [Stmt.functionDef "calculate_risk" [] [Stmt.other 2] Option.none 1]

/-- The record the scanner emits for `mPub`. -/
def rPub : FuncData :=
  { name := "calculate_risk", description := "No description provided."
    parameters := [], return_ann := "Unknown", line_number := 1 }

/-- A module with two public top-level functions on lines 1 and 3. -/
def mOrd : List Stmt :=
  [Stmt.functionDef "a" [] [Stmt.other 2] Option.none 1,
   Stmt.functionDef "b" [] [Stmt.other 4] Option.none 3]

/-- A function node carrying a docstring. -/
def fDoc : FuncNode :=
  ⟨"calculate_risk", [],
    [Stmt.exprStmt (Expr.const (Lit.strVal "Analyzes the financial risk.")) 2,
     Stmt.other 3], Option.none, 1⟩

/-- A function node with no docstring. -/
def fNoDoc : FuncNode :=
  ⟨"f", [], [Stmt.other 2], Option.none, 1⟩

/-- A function node whose attached docstring is the empty string
(`def f(): ""` — a docstring is attached, and it is falsy). -/
def fEmptyDoc : FuncNode :=
  ⟨"f", [], [Stmt.exprStmt (Expr.const (Lit.strVal "")) 2, Stmt.other 3],
    Option.none, 1⟩

/-- A function node with an indented multi-line docstring, as in
`example_lib.py`: the attached literal carries the source indentation that
`inspect.cleandoc` strips. -/
def fIndentDoc : FuncNode :=
  ⟨"calculate_risk", [],
    [Stmt.exprStmt
      (Expr.const (Lit.strVal "\n    Analyzes the financial risk.\n    ")) 2],
    Option.none, 1⟩

/-- `visitBody` distributes over concatenated suites. -/
theorem visitBody_append (xs ys : List Stmt) :
    visitBody (xs ++ ys) = visitBody xs ++ visitBody ys := by
  induction xs with
  | nil => rfl
  | cons s rest ih =>
      rw [List.cons_append, visitBody, visitBody, ih, List.append_assoc]

/-- Once inside a paragraph, the loop keeps accumulating exactly the
non-blank lines up to the first blank one (or the end). -/
theorem mdLoop_snd_inPara (ls : List String) (t : Option String)
    (acc : List String) :
    (mdLoop ls t acc true).2
      = acc ++ ls.takeWhile fun ln => !(strip ln == "") := by
  induction ls generalizing t acc with
  | nil => simp [mdLoop]
  | cons ln rest ih =>
      rw [mdLoop]
      by_cases h : strip ln == ""
      · simp [h, List.takeWhile_cons, ih]
      · simp [h, List.takeWhile_cons, ih, List.append_assoc]

/-- The lines the loop accumulates are the first contiguous run of
non-blank lines. -/
theorem mdLoop_snd (ls : List String) (t : Option String) :
    (mdLoop ls t [] false).2 = firstParagraph ls := by
  induction ls generalizing t with
  | nil => simp [mdLoop, firstParagraph]
  | cons ln rest ih =>
      rw [mdLoop]
      by_cases h : strip ln == ""
      · simp [h, ih, firstParagraph, List.dropWhile_cons]
      · simp [h, mdLoop_snd_inPara, firstParagraph, List.dropWhile_cons,
          List.takeWhile_cons]

/-!
## The claims
-/

/-- **C1**, as stated, is false: inclusion is NOT restricted to direct
children of the file's top-level scope. In `mNested` the public function
`g`, nested inside `f`'s body, is emitted although it is not a direct child
of the top-level scope, so "included iff public and a direct top-level
child" fails at name `g`. -/
theorem C1_counterexample :
    ¬ ((((scan mNested).any fun r => r.name == "g") = true) ↔
        (startswith "g" "_" = false ∧ isDirectTopLevelFuncDef mNested "g" = true)) := by
  decide

/-- **C1** (amended): a function is included in the output iff it is a plain
(non-async) function definition whose name does not start with the
private-marker prefix, at ANY nesting depth — the visitor recurses into
every function and class body — and the output is exactly the pre-order
list of such nodes rendered as records. -/
theorem C1_theorem (m : List Stmt) :
    scan m
      = ((funcNodesBody m).filter fun f => !(startswith f.name "_")).map func_data :=
  scan_eq_filter m

/-- **C2**: a function whose name starts with the private-marker prefix
never appears in the output, regardless of nesting depth. -/
theorem C2_theorem (m : List Stmt) (r : FuncData) (hr : r ∈ scan m) :
    startswith r.name "_" = false := by
  rw [scan_eq_filter] at hr
  obtain ⟨f, hf, rfl⟩ := List.mem_map.mp hr
  have hpub := (List.mem_filter.mp hf).2
  simpa [func_data] using hpub

/-- Witness for **C2** at the concrete module `mPub`. -/
theorem C2_witness : startswith rPub.name "_" = false :=
  C2_theorem mPub rPub (by decide)

/-- **C3**: when the statements of the parsed file carry non-decreasing
line numbers in pre-order (as any real source layout does), the emitted
records' `line_number` fields are in ascending (non-decreasing) order. -/
theorem C3_theorem (m : List Stmt)
    (h : List.Sorted (· ≤ ·) (bodyLines m)) :
    List.Sorted (· ≤ ·) ((scan m).map FuncData.line_number) :=
  List.Pairwise.sublist (visitBody_lines_sublist m) h

/-- Witness for **C3** at the concrete module `mOrd`. -/
theorem C3_witness :
    List.Sorted (· ≤ ·) ((scan mOrd).map FuncData.line_number) :=
  C3_theorem mOrd (by decide)

/-- **C4**: an unannotated positional parameter gets type `"Any"`; a bare
identifier annotation `T` gets `"T"`; a literal-constant annotation gets the
literal's value; any other annotation shape gets `"Any"`. The return
annotation is the identifier for a bare-identifier annotation and
`"Unknown"` in every other case (none, constant, or other shapes); emitted
records are built from exactly these extractors. -/
theorem C4_theorem (nm t : String) (v : Lit) (rest : List Arg) (f : FuncNode) :
    get_args (Arg.mk nm Option.none :: rest)
      = ParamRecord.mk nm (Lit.strVal "Any") :: get_args rest
  ∧ get_args (Arg.mk nm (some (Expr.name t)) :: rest)
      = ParamRecord.mk nm (Lit.strVal t) :: get_args rest
  ∧ get_args (Arg.mk nm (some (Expr.const v)) :: rest)
      = ParamRecord.mk nm v :: get_args rest
  ∧ get_args (Arg.mk nm (some Expr.other) :: rest)
      = ParamRecord.mk nm (Lit.strVal "Any") :: get_args rest
  ∧ get_return_type (some (Expr.name t)) = t
  ∧ get_return_type Option.none = "Unknown"
  ∧ get_return_type (some (Expr.const v)) = "Unknown"
  ∧ get_return_type (some Expr.other) = "Unknown"
  ∧ (func_data f).parameters = get_args f.args
  ∧ (func_data f).return_ann = get_return_type f.returns :=
  ⟨rfl, rfl, rfl, rfl, rfl, rfl, rfl, rfl, rfl, rfl⟩

/-- **C5**, as stated, is false: the description is not always exactly the
attached documentation string. At `fEmptyDoc` the attached docstring is
`""` but Python `or` treats it as falsy, so the description is the
fallback, not `""`; at `fIndentDoc` the attached literal is
`"\n    Analyzes the financial risk.\n    "` but `ast.get_docstring`
normalises it with `inspect.cleandoc`, so the description differs from the
attached string. -/
theorem C5_counterexample :
    ((func_data fEmptyDoc).description = "No description provided."
      ∧ ¬ (func_data fEmptyDoc).description = "")
  ∧ ((func_data fIndentDoc).description = "Analyzes the financial risk."
      ∧ ¬ (func_data fIndentDoc).description
            = "\n    Analyzes the financial risk.\n    ") := by
  decide

/-- **C5** (amended): when `ast.get_docstring` yields a non-empty string —
the attached docstring after `inspect.cleandoc` normalisation — the
description is exactly that string; when there is no docstring, or the
normalised docstring is empty (falsy under Python `or`), the description is
exactly `"No description provided."`. -/
theorem C5_theorem (f : FuncNode) (s : String) :
    (get_docstring f.body = some s → s ≠ "" → (func_data f).description = s)
  ∧ (get_docstring f.body = Option.none →
      (func_data f).description = "No description provided.")
  ∧ (get_docstring f.body = some "" →
      (func_data f).description = "No description provided.") := by
  refine ⟨?_, ?_, ?_⟩
  · intro h hs; simp [func_data, pyOr, h, hs]
  · intro h; simp [func_data, pyOr, h]
  · intro h; simp [func_data, pyOr, h]

/-- Witness for **C5** at the concrete nodes `fDoc`, `fNoDoc` and
`fEmptyDoc`. -/
theorem C5_witness :
    (func_data fDoc).description = "Analyzes the financial risk."
  ∧ (func_data fNoDoc).description = "No description provided."
  ∧ (func_data fEmptyDoc).description = "No description provided." :=
  ⟨(C5_theorem fDoc "Analyzes the financial risk.").1 (by decide) (by decide),
   (C5_theorem fNoDoc "").2.1 rfl,
   (C5_theorem fEmptyDoc "").2.2 (by decide)⟩

/-- **C6**: an unparseable source file makes `scan_file` fail with the
syntax diagnostic and no partial result; the dispatch loop converts that
failure into the file's error entry, and every sibling file's entry is
exactly what it would be on its own — the walk is not aborted. -/
theorem C6_theorem (d nm : String) (xs ys : List CFile) :
    scan_file (some (PyText.invalid d)) nm = Except.error d
  ∧ report (xs ++ CFile.mk nm (FileKind.py (PyText.invalid d)) :: ys)
      = report xs ++ FileEntry.mk nm (EntryData.pyError d) :: report ys := by
  constructor
  · rfl
  · simp [report, dispatch, scan_file, parse]

/-- **C7**, as stated, is false: on a missing path `scan_file` RETURNS the
dict `{"error": "File missing.py not found."}` as a normal value — it does
not raise, and nothing terminates the run. -/
theorem C7_counterexample :
    scan_file Option.none "missing.py"
      = Except.ok (ScanOut.errDict "File missing.py not found.") := rfl

/-- **C7** (amended): when the target path does not exist, `scan_file`
returns the error record `{"error": f"File {path} not found."}` as a normal
(non-raising) value. -/
theorem C7_theorem (p : String) :
    scan_file Option.none p
      = Except.ok (ScanOut.errDict ("File " ++ p ++ " not found."))
  ∧ (scan_file Option.none p).isOk = true :=
  ⟨rfl, rfl⟩

/-- **C8**, as stated, is false on its own example: for the file
`["# Title", "", "Hello world"]` the first contiguous run of non-blank
lines is the heading line itself, so the description is `"# Title"`, not
`"Hello world"`. -/
theorem C8_counterexample :
    (scan_markdown "README.md" ["# Title", "", "Hello world"]).description
      = "# Title"
  ∧ ¬ (scan_markdown "README.md" ["# Title", "", "Hello world"]).description
      = "Hello world" := by
  decide

/-- **C8** (amended): the description is the first contiguous run of
non-blank (`rstrip`-ed) lines — the heading line included when it opens that
run — joined with newlines and trimmed, with the fixed fallback when no such
run exists; for the example file the title is `"Title"` and the description
is `"# Title"`. -/
theorem C8_theorem (path : String) (rawLines : List String) :
    (scan_markdown path rawLines).description
      = (if (firstParagraph (rawLines.map rstrip)).isEmpty then
           "No description available."
         else strip (String.intercalate "\n" (firstParagraph (rawLines.map rstrip))))
  ∧ (scan_markdown "README.md" ["# Title", "", "Hello world"]).title = "Title"
  ∧ (scan_markdown "README.md" ["# Title", "", "Hello world"]).description
      = "# Title" := by
  refine ⟨?_, by decide, by decide⟩
  simp only [scan_markdown, mdLoop_snd]

/-- **C9**: a missing context directory yields the diagnostic and a
non-zero exit status; an existing empty directory yields a successful run
with an empty report. -/
theorem C9_theorem (d : String) (files : List CFile) :
    main_run d false files
      = MainResult.fatal ("Context directory not found: " ++ d) 1
  ∧ main_run d true []
      = MainResult.success "--- CONTEXT FILES METADATA ---" [] :=
  ⟨rfl, rfl⟩

/-- **C10**: an async function definition never yields a record of its own —
its visit is exactly the visit of its body, even when it is public and at
top level — and the whole output consists only of plain (non-async)
function-definition records. -/
theorem C10_theorem (nm : String) (args : List Arg) (body : List Stmt)
    (ret : Option Expr) (l : Nat) (xs ys : List Stmt) :
    visitStmt (Stmt.asyncFunctionDef nm args body ret l) = visitBody body
  ∧ scan (xs ++ Stmt.asyncFunctionDef nm args body ret l :: ys)
      = scan xs ++ scan body ++ scan ys
  ∧ funcNodes (Stmt.asyncFunctionDef nm args body ret l) = funcNodesBody body := by
  refine ⟨rfl, ?_, rfl⟩
  rw [scan, scan, scan, scan, visitBody_append, visitBody]
  show visitBody xs ++ (visitBody body ++ visitBody ys)
      = visitBody xs ++ visitBody body ++ visitBody ys
  rw [List.append_assoc]

end OpenClow
